import Mathlib

/-!
Verification of the TomTom map-version checker (a Cloudflare Worker in
`src/index.ts`).  The worker scrapes a web page for a four-digit map version,
stores one version record per UTC day in a key-value namespace, records
version transitions in a second namespace together with a pointer to the
latest transition, and sends notification emails.

The development embeds the worker shallowly:

* the body post-processing done by `fetchMapVersion`
  (`replaceAll(/<[^>]+>/g, " ")` followed by `replaceAll(/\s{2,}/g, " ")`
  and the search for `/latest map version is (\d{4})/i`) is modelled as
  executable functions on `List Char`;
* the two KV namespaces are association lists threaded explicitly through
  the handlers; the `last_change` pointer key of `MAP_VERSION_CHANGES` is
  modelled as a dedicated field;
* the `scheduled` handler is a pure function from the store state plus the
  outcomes of its effectful steps (previous-version read, page fetch,
  version put, email send) to the new state, the list of attempted emails,
  the log lines and the failure flag.
-/

/-- ASCII lower-casing, the fragment of JavaScript case-insensitive regex
matching that the `/latest map version is (\d{4})/i` pattern exercises. -/
def toLowerAscii (c : Char) : Char :=
  if 'A' ≤ c ∧ c ≤ 'Z' then Char.ofNat (c.toNat + 32) else c

/-- Character class `\s` of JavaScript regular expressions. -/
def isJsSpace (c : Char) : Bool :=
  c = ' ' ∨ c = '\t' ∨ c = '\n' ∨ c.toNat = 11 ∨ c.toNat = 12 ∨ c = '\r' ∨
    c.toNat = 160 ∨ c.toNat = 0x1680 ∨
    (0x2000 ≤ c.toNat ∧ c.toNat ≤ 0x200a) ∨
    c.toNat = 0x2028 ∨ c.toNat = 0x2029 ∨ c.toNat = 0x202f ∨
    c.toNat = 0x205f ∨ c.toNat = 0x3000 ∨ c.toNat = 0xfeff

/-- One left-to-right pass of `body.replaceAll(/<[^>]+>/g, " ")`.
The first argument is `none` outside a candidate tag and `some buf` after an
unmatched `<`, where `buf` holds the characters read since the `<` in
reverse order.  A `>` after at least one non-`>` character completes a match,
which is replaced by a single space; a `>` immediately after the `<` means
the regex cannot match there, so both characters are kept verbatim. -/
def stripTagsGo : Option (List Char) → List Char → List Char
  | none, [] => []
  | some buf, [] => '<' :: buf.reverse
  | none, c :: rest =>
      if c = '<' then stripTagsGo (some []) rest
      else c :: stripTagsGo none rest
  | some buf, c :: rest =>
      if c = '>' then
        match buf with
        | [] => '<' :: '>' :: stripTagsGo none rest
        | _ :: _ => ' ' :: stripTagsGo none rest
      else stripTagsGo (some (c :: buf)) rest

/-- `body.replaceAll(/<[^>]+>/g, " ")` from `fetchMapVersion`. -/
def stripTags (s : List Char) : List Char :=
  stripTagsGo none s

/-- One left-to-right pass of `.replaceAll(/\s{2,}/g, " ")`.
State `none`: not inside a whitespace run.  State `some (some c)`: exactly
one whitespace character `c` seen so far (a lone whitespace character is not
matched by `\s{2,}` and is emitted unchanged).  State `some none`: a run of
at least two whitespace characters has been detected and replaced by a
single space; the rest of the run is being swallowed. -/
def collapseGo : Option (Option Char) → List Char → List Char
  | none, [] => []
  | some (some c), [] => [c]
  | some none, [] => []
  | none, c :: rest =>
      if isJsSpace c then collapseGo (some (some c)) rest
      else c :: collapseGo none rest
  | some (some p), c :: rest =>
      if isJsSpace c then ' ' :: collapseGo (some none) rest
      else p :: c :: collapseGo none rest
  | some none, c :: rest =>
      if isJsSpace c then collapseGo (some none) rest
      else c :: collapseGo none rest

/-- `.replaceAll(/\s{2,}/g, " ")` from `fetchMapVersion`. -/
def collapseWs (s : List Char) : List Char :=
  collapseGo none s

/-- The literal part of the pattern `/latest map version is (\d{4})/i`. -/
def versionMarker : List Char :=
  "latest map version is ".toList

/-- Attempt of the pattern `/latest map version is (\d{4})/i` at the head of
`s`; on success returns capture group 1 (the four digits). -/
def matchAt (s : List Char) : Option String :=
  if (s.take versionMarker.length).map toLowerAscii = versionMarker then
    let ds := (s.drop versionMarker.length).take 4
    if ds.length = 4 ∧ ds.all Char.isDigit then some (String.mk ds) else none
  else none

/-- `String.prototype.match`: the leftmost position where the pattern
matches wins, scanning positions left to right. -/
def findVersion : List Char → Option String
  | [] => none
  | c :: rest =>
      match matchAt (c :: rest) with
      | some v => some v
      | none => findVersion rest

/-- The body post-processing applied by `fetchMapVersion` before matching:
strip markup tags, then collapse whitespace runs. -/
def processBody (body : String) : List Char :=
  collapseWs (stripTags body.toList)

/-- Outcome of `fetchMapVersion`: the thrown "Failed to fetch map version
page" error, the thrown "Failed to find latest map version in page" error,
or the returned four-digit string. -/
inductive FetchResult where
  | fetchError (status : Nat)
  | parseError
  | ok (version : String)
deriving DecidableEq, Repr

/-- `fetchMapVersion` as a function of the HTTP response: its `ok` flag,
its status code and its body text. -/
def fetchMapVersion (resOk : Bool) (status : Nat) (body : String) : FetchResult :=
  if !resOk then FetchResult.fetchError status
  else
    match findVersion (processBody body) with
    | some v => FetchResult.ok v
    | none => FetchResult.parseError

/-- Specification-level predicate: the text `t` starts with a
case-insensitive occurrence of "latest map version is " followed by four
digits. -/
def markerHere (t : List Char) : Bool :=
  decide ((t.take versionMarker.length).map toLowerAscii = versionMarker) &&
    decide (((t.drop versionMarker.length).take 4).length = 4) &&
    ((t.drop versionMarker.length).take 4).all Char.isDigit

/-- Specification-level predicate: the pattern occurs at position `j` of
`s`. -/
def markerAt (s : List Char) (j : Nat) : Bool :=
  markerHere (s.drop j)

/-- Specification-level predicate: the pattern occurs somewhere in `s`. -/
def existsMarker (s : List Char) : Bool :=
  (List.range s.length).any (fun j => markerAt s j)

theorem matchAt_nil : matchAt [] = none := by decide

theorem matchAt_eq_none_of_markerHere_false (t : List Char)
    (h : markerHere t = false) : matchAt t = none := by
  unfold markerHere at h
  unfold matchAt
  simp only [Bool.and_eq_false_iff, decide_eq_false_iff_not] at h
  rcases h with (h | h) | h
  · rw [if_neg h]
  · split
    · simp only []
      rw [if_neg]
      intro hc
      exact h hc.1
    · rfl
  · split
    · simp only []
      rw [if_neg]
      intro hc
      rw [h] at hc
      exact Bool.false_ne_true hc.2
    · rfl

theorem matchAt_eq_some_of_markerHere_true (t : List Char)
    (h : markerHere t = true) :
    matchAt t = some (String.mk ((t.drop versionMarker.length).take 4)) := by
  unfold markerHere at h
  simp only [Bool.and_eq_true, decide_eq_true_eq] at h
  unfold matchAt
  rw [if_pos h.1.1, if_pos ⟨h.1.2, h.2⟩]

theorem findVersion_eq_some (s : List Char) (i : Nat) (v : String)
    (h1 : ∀ j, j < i → matchAt (s.drop j) = none)
    (h2 : matchAt (s.drop i) = some v) : findVersion s = some v := by
  induction s generalizing i with
  | nil =>
      rw [List.drop_nil, matchAt_nil] at h2
      exact absurd h2 (by simp)
  | cons c rest ih =>
      cases i with
      | zero =>
          rw [List.drop_zero] at h2
          unfold findVersion
          rw [h2]
      | succ i =>
          have h0 : matchAt (c :: rest) = none := by
            have := h1 0 (Nat.succ_pos i)
            rwa [List.drop_zero] at this
          unfold findVersion
          rw [h0]
          exact ih i (fun j hj => by
            have := h1 (j + 1) (Nat.succ_lt_succ hj)
            rwa [List.drop_succ_cons] at this)
            (by rwa [List.drop_succ_cons] at h2)

theorem findVersion_eq_none (s : List Char)
    (h : ∀ j, matchAt (s.drop j) = none) : findVersion s = none := by
  induction s with
  | nil => rfl
  | cons c rest ih =>
      have h0 : matchAt (c :: rest) = none := by
        have := h 0
        rwa [List.drop_zero] at this
      unfold findVersion
      rw [h0]
      exact ih (fun j => by
        have := h (j + 1)
        rwa [List.drop_succ_cons] at this)

theorem findVersion_isSome (s : List Char) (j : Nat) (v : String)
    (h : matchAt (s.drop j) = some v) : ∃ w, findVersion s = some w := by
  induction s generalizing j with
  | nil =>
      rw [List.drop_nil, matchAt_nil] at h
      exact absurd h (by simp)
  | cons c rest ih =>
      cases hm : matchAt (c :: rest) with
      | some w =>
          refine ⟨w, ?_⟩
          unfold findVersion
          rw [hm]
      | none =>
          cases j with
          | zero =>
              rw [List.drop_zero] at h
              rw [hm] at h
              exact absurd h (by simp)
          | succ j =>
              rw [List.drop_succ_cons] at h
              obtain ⟨w, hw⟩ := ih j h
              refine ⟨w, ?_⟩
              unfold findVersion
              rw [hm]
              exact hw

/-- A version transition record, the JSON value (and KV metadata) written to
`MAP_VERSION_CHANGES`. -/
structure VersionChange where
  created_at : Nat
  from_version : String
  to_version : String
deriving DecidableEq, Repr

/-- Lookup in a KV namespace modelled as an association list (most recent
write first). -/
def kvGet {δ : Type} [DecidableEq δ] {α : Type} : List (δ × α) → δ → Option α
  | [], _ => none
  | (k2, v) :: rest, k => if k2 = k then some v else kvGet rest k

/-- `put` on a KV namespace: an unconditional upsert. -/
def kvPut {δ : Type} {α : Type} (store : List (δ × α)) (k : δ) (v : α) :
    List (δ × α) :=
  (k, v) :: store

/-- The worker's persistent state: the `MAP_VERSIONS` namespace
(date → version string), the date-keyed records of `MAP_VERSION_CHANGES`,
and the `last_change` pointer key of `MAP_VERSION_CHANGES`.  The date key
type `δ` is abstract; the handlers receive today's and yesterday's keys as
arguments (`getTodayDate` / `getDateOneDayBefore` in the source). -/
structure Stores (δ : Type) where
  MAP_VERSIONS : List (δ × String)
  MAP_VERSION_CHANGES : List (δ × VersionChange)
  last_change : Option δ
deriving DecidableEq, Repr

/-- The `for (const date of dates)` loop of `getLatestVersion`: return the
first date whose stored value is truthy (present and not the empty
string). -/
def firstTruthy {δ : Type} [DecidableEq δ] (versions : List (δ × String)) :
    List δ → Option (δ × String)
  | [] => none
  | date :: rest =>
      match kvGet versions date with
      | some version =>
          if version = "" then firstTruthy versions rest
          else some (date, version)
      | none => firstTruthy versions rest

/-- `getLatestVersion`: consult today's key, then yesterday's. -/
def getLatestVersion {δ : Type} [DecidableEq δ] (versions : List (δ × String))
    (today yesterday : δ) : Option (δ × String) :=
  firstTruthy versions [today, yesterday]

/-- The `|| null` coercion applied to `(await getLatestVersion(env))?.version`:
an empty string is turned into `null`. -/
def ornull : Option String → Option String
  | some v => if v = "" then none else some v
  | none => none

/-- JavaScript truthiness of a `string | null` value. -/
def truthy : Option String → Bool
  | some v => v ≠ ""
  | none => false

/-- The `previousVersion` local of the `scheduled` handler: `null` when the
lookup threw (the error is swallowed), otherwise the looked-up version with
`""` coerced to `null`. -/
def previousVersionOf {δ : Type} [DecidableEq δ] (s : Stores δ)
    (today yesterday : δ) (readFail : Bool) : Option String :=
  if readFail then none
  else ornull ((getLatestVersion s.MAP_VERSIONS today yesterday).map Prod.snd)

/-- Observable outcome of one `scheduled` invocation: the final store state,
the emails attempted (subject, body), the console log lines, and whether the
invocation threw (was reported failed to the scheduler). -/
structure RunResult (δ : Type) where
  stores : Stores δ
  emails : List (String × String)
  logs : List String
  failed : Bool
deriving DecidableEq, Repr

/-- Log line of a failed `sendEmail` call. -/
def emailFailLog : String :=
  "Failed to send notification email"

/-- The `scheduled` handler as a function of the store state and the
outcomes of its effectful steps: `readFail` tells whether the
previous-version lookup threw, `fetchRes` is the outcome of
`fetchMapVersion` (`Except.error e` = it threw `e`), `persistErr` is the
error thrown by `MAP_VERSIONS.put` (`none` = the put succeeded), `emailOk`
tells whether `sendEmail` calls succeed, and `now` is `Date.now()`. -/
def scheduled {δ : Type} [DecidableEq δ] (s : Stores δ) (today yesterday : δ)
    (readFail : Bool) (fetchRes : Except String String)
    (persistErr : Option String) (emailOk : Bool) (now : Nat) : RunResult δ :=
  let logs0 : List String :=
    if readFail then ["Error occurred while checking previous map version."]
    else []
  let previousVersion := previousVersionOf s today yesterday readFail
  match fetchRes with
  | Except.error e =>
      if truthy previousVersion then
        { stores := s,
          emails := [("Error in TomTom map version check",
            "Error occurred while checking map version." ++ "\n\n" ++ e)],
          logs := logs0 ++ [e] ++ (if emailOk then [] else [emailFailLog]),
          failed := true }
      else
        { stores := s, emails := [], logs := logs0 ++ [e], failed := true }
  | Except.ok latestVersion =>
      match persistErr with
      | some e =>
          { stores := s,
            emails := [("Error in TomTom map version check",
              "Error occurred while saving map version." ++ "\n\n" ++ e)],
            logs := logs0 ++ [e] ++ (if emailOk then [] else [emailFailLog]),
            failed := true }
      | none =>
          let s1 : Stores δ :=
            { s with MAP_VERSIONS := kvPut s.MAP_VERSIONS today latestVersion }
          match previousVersion with
          | none =>
              { stores := s1, emails := [],
                logs := logs0 ++
                  ["First time checking map version, latest version is " ++
                    latestVersion],
                failed := false }
          | some p =>
              if p = "" then
                { stores := s1, emails := [],
                  logs := logs0 ++
                    ["First time checking map version, latest version is " ++
                      latestVersion],
                  failed := false }
              else if p = latestVersion then
                { stores := s1, emails := [],
                  logs := logs0 ++
                    ["Latest map version is the same as in previous check (" ++
                      latestVersion ++ ")"],
                  failed := false }
              else
                let message :=
                  "Map version changed from " ++ p ++ " to " ++ latestVersion
                let change : VersionChange :=
                  { created_at := now, from_version := p,
                    to_version := latestVersion }
                let s2 : Stores δ :=
                  { s1 with
                    MAP_VERSION_CHANGES :=
                      kvPut s1.MAP_VERSION_CHANGES today change,
                    last_change := some today }
                { stores := s2,
                  emails := [("New TomTom map version available", message)],
                  logs := logs0 ++ [message] ++
                    (if emailOk then [] else [emailFailLog]),
                  failed := !emailOk }

/-- The data rendered by each branch of the request handler. -/
inductive RespModel (δ : Type) where
  | home (version : Option String) (date : Option δ) (lastChangeDate : Option δ)
      (lastChange : Option VersionChange)
  | apiIndex
  | current (version : Option String) (lastChecked : Option δ)
  | history (entries : List (δ × VersionChange))
  | notFound
deriving DecidableEq

/-- The `fetch` request handler as a function of the request pathname and
the store state.  Every KV access of the source is a read; the handler
returns the (possibly updated) store state alongside the response so that
the absence of writes is a provable statement rather than a typing
convention. -/
def fetchHandler {δ : Type} [DecidableEq δ] (pathname : String)
    (today yesterday : δ) (s : Stores δ) : RespModel δ × Stores δ :=
  if pathname = "/" then
    let r := getLatestVersion s.MAP_VERSIONS today yesterday
    let lastChangeDate := s.last_change
    let lastChange :=
      match lastChangeDate with
      | some d2 => kvGet s.MAP_VERSION_CHANGES d2
      | none => none
    (RespModel.home (r.map Prod.snd) (r.map Prod.fst) lastChangeDate lastChange,
      s)
  else if pathname = "/v1" then (RespModel.apiIndex, s)
  else if pathname = "/v1/current" then
    let r := getLatestVersion s.MAP_VERSIONS today yesterday
    (RespModel.current (r.map Prod.snd) (r.map Prod.fst), s)
  else if pathname = "/v1/history" then
    (RespModel.history s.MAP_VERSION_CHANGES, s)
  else (RespModel.notFound, s)

/-- C1: for every fetched page whose body, after stripping all markup tags
and collapsing runs of whitespace, contains a case-insensitive match of
"latest map version is " followed by four digits (the leftmost match being
the one exhibited), `fetchMapVersion` returns exactly that 4-digit
string. -/
theorem fetch_version_marker (status : Nat) (body : String)
    (pre mid ds post : List Char)
    (hsplit : processBody body = pre ++ (mid ++ (ds ++ post)))
    (hmid : mid.map toLowerAscii = versionMarker)
    (hlen : ds.length = 4)
    (hdig : ds.all Char.isDigit = true)
    (hfirst : ∀ j, j < pre.length → markerAt (processBody body) j = false) :
    fetchMapVersion true status body = FetchResult.ok (String.mk ds) := by
  have hmidlen : mid.length = versionMarker.length := by
    rw [← hmid]
    exact (List.length_map mid toLowerAscii).symm
  have hdropPre : (processBody body).drop pre.length = mid ++ (ds ++ post) := by
    rw [hsplit]
    exact List.drop_left pre (mid ++ (ds ++ post))
  have htake : ((mid ++ (ds ++ post)).take versionMarker.length) = mid :=
    List.take_left' hmidlen
  have hdropMk : ((mid ++ (ds ++ post)).drop versionMarker.length) = ds ++ post :=
    List.drop_left' hmidlen
  have htake4 : ((ds ++ post).take 4) = ds := List.take_left' hlen
  have hmk : markerHere (mid ++ (ds ++ post)) = true := by
    simp only [markerHere, Bool.and_eq_true, decide_eq_true_eq]
    refine ⟨⟨?_, ?_⟩, ?_⟩
    · rw [htake, hmid]
    · rw [hdropMk, htake4, hlen]
    · rw [hdropMk, htake4]
      exact hdig
  have hmatch : matchAt ((processBody body).drop pre.length) =
      some (String.mk ds) := by
    rw [hdropPre]
    rw [matchAt_eq_some_of_markerHere_true _ hmk]
    rw [hdropMk, htake4]
  have hnone : ∀ j, j < pre.length →
      matchAt ((processBody body).drop j) = none := by
    intro j hj
    have hmrk := hfirst j hj
    simp only [markerAt] at hmrk
    exact matchAt_eq_none_of_markerHere_false _ hmrk
  have hfind : findVersion (processBody body) = some (String.mk ds) :=
    findVersion_eq_some _ pre.length _ hnone hmatch
  simp [fetchMapVersion, hfind]

/-- Witness for C1 on a concrete page. -/
theorem fetch_version_marker_witness :
    fetchMapVersion true 200 "<p>The LATEST map version is 2027.</p>" =
      FetchResult.ok "2027" :=
  fetch_version_marker 200 "<p>The LATEST map version is 2027.</p>"
    " The ".toList "LATEST map version is ".toList "2027".toList ". ".toList
    (by decide) (by decide) (by decide) (by decide) (by decide)

/-- C2: `fetchMapVersion` fails with the fetch error whenever the response
is not ok, fails with the parse error whenever the response is ok but the
stripped, whitespace-collapsed body contains no case-insensitive match of
the pattern, and returns a version in all other cases. -/
theorem fetch_failure_modes (status : Nat) (body : String) :
    fetchMapVersion false status body = FetchResult.fetchError status ∧
    (existsMarker (processBody body) = false →
      fetchMapVersion true status body = FetchResult.parseError) ∧
    (existsMarker (processBody body) = true →
      ∃ v, fetchMapVersion true status body = FetchResult.ok v) := by
  refine ⟨rfl, ?_, ?_⟩
  · intro h
    have hall : ∀ j, matchAt ((processBody body).drop j) = none := by
      intro j
      by_cases hj : j < (processBody body).length
      · simp only [existsMarker, List.any_eq_false, List.mem_range] at h
        have hmrk := h j hj
        simp only [Bool.not_eq_true] at hmrk
        simp only [markerAt] at hmrk
        exact matchAt_eq_none_of_markerHere_false _ hmrk
      · push_neg at hj
        rw [List.drop_eq_nil_of_le hj, matchAt_nil]
    have hfind := findVersion_eq_none _ hall
    simp [fetchMapVersion, hfind]
  · intro h
    simp only [existsMarker, List.any_eq_true, List.mem_range] at h
    obtain ⟨j, _, hj⟩ := h
    simp only [markerAt] at hj
    have hm := matchAt_eq_some_of_markerHere_true _ hj
    obtain ⟨w, hw⟩ := findVersion_isSome _ j _ hm
    exact ⟨w, by simp [fetchMapVersion, hw]⟩

/-- Witness for C2: a failing status yields the fetch error and a page
without the marker yields the parse error. -/
theorem fetch_failure_modes_witness :
    fetchMapVersion false 404 "whatever" = FetchResult.fetchError 404 ∧
    fetchMapVersion true 200 "<h1>hello world</h1>" = FetchResult.parseError :=
  ⟨(fetch_failure_modes 404 "whatever").1,
    (fetch_failure_modes 200 "<h1>hello world</h1>").2.1 (by decide)⟩

/-- C3: `getLatestVersion` checks today's key first and then yesterday's,
returning the first present value paired with the date it was found under;
if neither key holds a value it returns none.  In particular, when only
yesterday's key is present its value is paired with yesterday's date. -/
theorem latest_version_lookup_order {δ : Type} [DecidableEq δ]
    (versions : List (δ × String)) (today yesterday : δ) :
    (∀ v, kvGet versions today = some v → v ≠ "" →
      getLatestVersion versions today yesterday = some (today, v)) ∧
    (kvGet versions today = none → ∀ v, kvGet versions yesterday = some v →
      v ≠ "" → getLatestVersion versions today yesterday = some (yesterday, v)) ∧
    (kvGet versions today = none → kvGet versions yesterday = none →
      getLatestVersion versions today yesterday = none) := by
  refine ⟨?_, ?_, ?_⟩
  · intro v hv hne
    simp [getLatestVersion, firstTruthy, hv, hne]
  · intro h0 v hv hne
    simp [getLatestVersion, firstTruthy, h0, hv, hne]
  · intro h0 h1
    simp [getLatestVersion, firstTruthy, h0, h1]

/-- Witness for C3: only yesterday's key is present, so its value is
returned with yesterday's date. -/
theorem latest_version_lookup_order_witness :
    getLatestVersion [("2024-05-01", "2024")] "2024-05-02" "2024-05-01" =
      some ("2024-05-01", "2024") :=
  (latest_version_lookup_order [("2024-05-01", "2024")] "2024-05-02"
      "2024-05-01").2.1 (by decide) "2024" (by decide) (by decide)

theorem ornull_eq_some {o : Option String} {p : String}
    (h : ornull o = some p) : o = some p ∧ p ≠ "" := by
  cases o with
  | none => simp [ornull] at h
  | some v =>
      simp only [ornull] at h
      by_cases hv : v = ""
      · rw [if_pos hv] at h
        exact absurd h (by simp)
      · rw [if_neg hv] at h
        injection h with h
        subst h
        exact ⟨rfl, hv⟩

/-- C4: when a previous version was known and differs from the fetched
latest version, the run writes a change record under today's date with the
previous and latest versions, points `last_change` at today's date, sends
the change notification, and stores today's version. -/
theorem scheduled_change_detected {δ : Type} [DecidableEq δ]
    (s : Stores δ) (today yesterday : δ) (p l : String) (now : Nat)
    (hprev : previousVersionOf s today yesterday false = some p)
    (hne : p ≠ l) :
    kvGet (scheduled s today yesterday false (Except.ok l) none true
        now).stores.MAP_VERSION_CHANGES today =
      some { created_at := now, from_version := p, to_version := l } ∧
    (scheduled s today yesterday false (Except.ok l) none true
        now).stores.last_change = some today ∧
    (scheduled s today yesterday false (Except.ok l) none true now).emails =
      [("New TomTom map version available",
        "Map version changed from " ++ p ++ " to " ++ l)] ∧
    (scheduled s today yesterday false (Except.ok l) none true
        now).stores.MAP_VERSIONS = kvPut s.MAP_VERSIONS today l := by
  have hor : ornull ((getLatestVersion s.MAP_VERSIONS today
      yesterday).map Prod.snd) = some p := by
    simpa [previousVersionOf] using hprev
  obtain ⟨-, hpne⟩ := ornull_eq_some hor
  refine ⟨?_, ?_, ?_, ?_⟩ <;>
    simp [scheduled, hprev, hpne, hne, kvGet, kvPut]

/-- Witness for C4 with previous version 2023 and latest 2024. -/
theorem scheduled_change_detected_witness :
    kvGet (scheduled (Stores.mk [("2024-05-01", "2023")] [] none)
        "2024-05-02" "2024-05-01" false (Except.ok "2024") none true
        1700000000).stores.MAP_VERSION_CHANGES "2024-05-02" =
      some { created_at := 1700000000, from_version := "2023",
             to_version := "2024" } ∧
    (scheduled (Stores.mk [("2024-05-01", "2023")] [] none)
        "2024-05-02" "2024-05-01" false (Except.ok "2024") none true
        1700000000).stores.last_change = some "2024-05-02" ∧
    (scheduled (Stores.mk [("2024-05-01", "2023")] [] none)
        "2024-05-02" "2024-05-01" false (Except.ok "2024") none true
        1700000000).emails =
      [("New TomTom map version available",
        "Map version changed from " ++ "2023" ++ " to " ++ "2024")] ∧
    (scheduled (Stores.mk [("2024-05-01", "2023")] [] none)
        "2024-05-02" "2024-05-01" false (Except.ok "2024") none true
        1700000000).stores.MAP_VERSIONS =
      kvPut [("2024-05-01", "2023")] "2024-05-02" "2024" :=
  scheduled_change_detected (Stores.mk [("2024-05-01", "2023")] [] none)
    "2024-05-02" "2024-05-01" "2023" "2024" 1700000000 (by decide) (by decide)

/-- C5: when no previous version was known or it equals the fetched latest
version, the run writes no change record, leaves the pointer untouched,
sends no email, succeeds, and its only store mutation is the write of
today's version. -/
theorem scheduled_no_change_frame {δ : Type} [DecidableEq δ]
    (s : Stores δ) (today yesterday : δ) (l : String) (rf eo : Bool)
    (now : Nat)
    (hprev : previousVersionOf s today yesterday rf = none ∨
      previousVersionOf s today yesterday rf = some l) :
    (scheduled s today yesterday rf (Except.ok l) none eo
        now).stores.MAP_VERSION_CHANGES = s.MAP_VERSION_CHANGES ∧
    (scheduled s today yesterday rf (Except.ok l) none eo
        now).stores.last_change = s.last_change ∧
    (scheduled s today yesterday rf (Except.ok l) none eo now).emails = [] ∧
    (scheduled s today yesterday rf (Except.ok l) none eo
        now).stores.MAP_VERSIONS = kvPut s.MAP_VERSIONS today l ∧
    (scheduled s today yesterday rf (Except.ok l) none eo now).failed =
      false := by
  rcases hprev with h | h
  · refine ⟨?_, ?_, ?_, ?_, ?_⟩ <;> simp [scheduled, h]
  · by_cases hl : l = ""
    · refine ⟨?_, ?_, ?_, ?_, ?_⟩ <;> simp [scheduled, h, hl]
    · refine ⟨?_, ?_, ?_, ?_, ?_⟩ <;> simp [scheduled, h, hl]

/-- Witness for C5 with previous = latest = 2024. -/
theorem scheduled_no_change_frame_witness :
    (scheduled (Stores.mk [("2024-05-01", "2024")] [] none)
        "2024-05-02" "2024-05-01" false (Except.ok "2024") none true
        0).stores.MAP_VERSION_CHANGES = [] ∧
    (scheduled (Stores.mk [("2024-05-01", "2024")] [] none)
        "2024-05-02" "2024-05-01" false (Except.ok "2024") none true
        0).stores.last_change = none ∧
    (scheduled (Stores.mk [("2024-05-01", "2024")] [] none)
        "2024-05-02" "2024-05-01" false (Except.ok "2024") none true
        0).emails = [] ∧
    (scheduled (Stores.mk [("2024-05-01", "2024")] [] none)
        "2024-05-02" "2024-05-01" false (Except.ok "2024") none true
        0).stores.MAP_VERSIONS = kvPut [("2024-05-01", "2024")]
        "2024-05-02" "2024" ∧
    (scheduled (Stores.mk [("2024-05-01", "2024")] [] none)
        "2024-05-02" "2024-05-01" false (Except.ok "2024") none true
        0).failed = false :=
  scheduled_no_change_frame (Stores.mk [("2024-05-01", "2024")] [] none)
    "2024-05-02" "2024-05-01" "2024" false true 0 (Or.inr (by decide))

/-- Counterexample to C6 as stated: when the persist step fails and no
previous version was known, the run nevertheless sends an error
notification, contradicting the claimed "notification if and only if a
previous version was known". -/
theorem scheduled_persist_error_notifies_cex :
    previousVersionOf (Stores.mk [] [] none : Stores String)
      "2024-05-02" "2024-05-01" false = none ∧
    (scheduled (Stores.mk [] [] none : Stores String) "2024-05-02"
        "2024-05-01" false (Except.ok "2024") (some "KV write failed") true
        0).emails =
      [("Error in TomTom map version check",
        "Error occurred while saving map version." ++ "\n\n" ++
          "KV write failed")] := by
  decide

/-- C6 amended: a fetch failure is logged, leaves the store untouched,
triggers a best-effort error notification if and only if a previous version
was known, and the run fails; a persist failure is logged, leaves the store
untouched, always triggers an error notification (regardless of whether a
previous version was known), and the run fails.  No retry is attempted
(the run is a single pass). -/
theorem scheduled_failure_handling_amended {δ : Type} [DecidableEq δ]
    (s : Stores δ) (today yesterday : δ) (rf : Bool) (e l : String)
    (eo : Bool) (pe : Option String) (now : Nat) :
    (scheduled s today yesterday rf (Except.error e) pe eo now).failed =
      true ∧
    (scheduled s today yesterday rf (Except.error e) pe eo now).stores = s ∧
    e ∈ (scheduled s today yesterday rf (Except.error e) pe eo now).logs ∧
    (scheduled s today yesterday rf (Except.error e) pe eo now).emails =
      (if truthy (previousVersionOf s today yesterday rf) then
        [("Error in TomTom map version check",
          "Error occurred while checking map version." ++ "\n\n" ++ e)]
      else []) ∧
    (scheduled s today yesterday rf (Except.ok l) (some e) eo now).failed =
      true ∧
    (scheduled s today yesterday rf (Except.ok l) (some e) eo now).stores =
      s ∧
    e ∈ (scheduled s today yesterday rf (Except.ok l) (some e) eo
      now).logs ∧
    (scheduled s today yesterday rf (Except.ok l) (some e) eo now).emails =
      [("Error in TomTom map version check",
        "Error occurred while saving map version." ++ "\n\n" ++ e)] := by
  refine ⟨?_, ?_, ?_, ?_, ?_, ?_, ?_, ?_⟩ <;>
    cases htr : truthy (previousVersionOf s today yesterday rf) <;>
      simp [scheduled, htr, List.mem_append]

/-- C8: the request handler performs no writes: for every pathname, the
store state after handling the request equals the state before. -/
theorem request_path_no_writes {δ : Type} [DecidableEq δ]
    (pathname : String) (today yesterday : δ) (s : Stores δ) :
    (fetchHandler pathname today yesterday s).2 = s := by
  unfold fetchHandler
  split_ifs <;> rfl

/-- C9: in the change-detected branch, the change record and the pointer
update are both in the resulting store even when the notification email
fails; the run is then marked failed and exactly one notification was
attempted. -/
theorem change_writes_precede_notification {δ : Type} [DecidableEq δ]
    (s : Stores δ) (today yesterday : δ) (p l : String) (now : Nat)
    (hprev : previousVersionOf s today yesterday false = some p)
    (hne : p ≠ l) :
    kvGet (scheduled s today yesterday false (Except.ok l) none false
        now).stores.MAP_VERSION_CHANGES today =
      some { created_at := now, from_version := p, to_version := l } ∧
    (scheduled s today yesterday false (Except.ok l) none false
        now).stores.last_change = some today ∧
    (scheduled s today yesterday false (Except.ok l) none false
        now).failed = true ∧
    (scheduled s today yesterday false (Except.ok l) none false
        now).emails =
      [("New TomTom map version available",
        "Map version changed from " ++ p ++ " to " ++ l)] := by
  have hor : ornull ((getLatestVersion s.MAP_VERSIONS today
      yesterday).map Prod.snd) = some p := by
    simpa [previousVersionOf] using hprev
  obtain ⟨-, hpne⟩ := ornull_eq_some hor
  refine ⟨?_, ?_, ?_, ?_⟩ <;>
    simp [scheduled, hprev, hpne, hne, kvGet, kvPut]

/-- Witness for C9: the email send fails but both writes persist. -/
theorem change_writes_precede_notification_witness :
    kvGet (scheduled (Stores.mk [("2024-05-01", "2023")] [] none)
        "2024-05-02" "2024-05-01" false (Except.ok "2024") none false
        7).stores.MAP_VERSION_CHANGES "2024-05-02" =
      some { created_at := 7, from_version := "2023",
             to_version := "2024" } ∧
    (scheduled (Stores.mk [("2024-05-01", "2023")] [] none)
        "2024-05-02" "2024-05-01" false (Except.ok "2024") none false
        7).stores.last_change = some "2024-05-02" ∧
    (scheduled (Stores.mk [("2024-05-01", "2023")] [] none)
        "2024-05-02" "2024-05-01" false (Except.ok "2024") none false
        7).failed = true ∧
    (scheduled (Stores.mk [("2024-05-01", "2023")] [] none)
        "2024-05-02" "2024-05-01" false (Except.ok "2024") none false
        7).emails =
      [("New TomTom map version available",
        "Map version changed from " ++ "2023" ++ " to " ++ "2024")] :=
  change_writes_precede_notification
    (Stores.mk [("2024-05-01", "2023")] [] none) "2024-05-02" "2024-05-01"
    "2023" "2024" 7 (by decide) (by decide)

/-- C10: an empty-string version value is treated as absent throughout:
the `|| null` coercion maps it to null, `getLatestVersion` skips a date key
holding the empty string (falling through to the next date or to none), and
a scheduled run whose only previous value is the empty string takes the
first-check path: no change record, no pointer update, no notification. -/
theorem empty_version_treated_absent {δ : Type} [DecidableEq δ]
    (vs : List (δ × String)) (t y : δ) (s : Stores δ) (l : String)
    (eo : Bool) (now : Nat) :
    ornull (some "") = none ∧
    (∀ v, kvGet vs t = some "" → kvGet vs y = some v → v ≠ "" →
      getLatestVersion vs t y = some (y, v)) ∧
    (kvGet vs t = some "" → kvGet vs y = none →
      getLatestVersion vs t y = none) ∧
    (kvGet vs t = some "" → kvGet vs y = some "" →
      getLatestVersion vs t y = none) ∧
    (kvGet s.MAP_VERSIONS t = some "" → kvGet s.MAP_VERSIONS y = none →
      (scheduled s t y false (Except.ok l) none eo
          now).stores.MAP_VERSION_CHANGES = s.MAP_VERSION_CHANGES ∧
      (scheduled s t y false (Except.ok l) none eo
          now).stores.last_change = s.last_change ∧
      (scheduled s t y false (Except.ok l) none eo now).emails = [] ∧
      (scheduled s t y false (Except.ok l) none eo now).logs =
        ["First time checking map version, latest version is " ++ l]) := by
  refine ⟨rfl, ?_, ?_, ?_, ?_⟩
  · intro v ht hy hne
    simp [getLatestVersion, firstTruthy, ht, hy, hne]
  · intro ht hy
    simp [getLatestVersion, firstTruthy, ht, hy]
  · intro ht hy
    simp [getLatestVersion, firstTruthy, ht, hy]
  · intro ht hy
    have hp : previousVersionOf s t y false = none := by
      simp [previousVersionOf, getLatestVersion, firstTruthy, ht, hy, ornull]
    refine ⟨?_, ?_, ?_, ?_⟩ <;> simp [scheduled, hp]

/-- Witness for C10: today's key holds the empty string, yesterday's holds
a version; the lookup skips today, and a run over an empty-string-only
store takes the first-check path. -/
theorem empty_version_treated_absent_witness :
    getLatestVersion [("2024-05-02", ""), ("2024-05-01", "2023")]
      "2024-05-02" "2024-05-01" = some ("2024-05-01", "2023") ∧
    (scheduled (Stores.mk [("2024-05-02", "")] [] none) "2024-05-02"
        "2024-05-01" false (Except.ok "2024") none true
        0).stores.MAP_VERSION_CHANGES = [] ∧
    (scheduled (Stores.mk [("2024-05-02", "")] [] none) "2024-05-02"
        "2024-05-01" false (Except.ok "2024") none true 0).emails = [] :=
  ⟨(empty_version_treated_absent
      [("2024-05-02", ""), ("2024-05-01", "2023")] "2024-05-02"
      "2024-05-01" (Stores.mk [] [] none) "2024" true 0).2.1 "2023"
    (by decide) (by decide) (by decide),
   ((empty_version_treated_absent ([] : List (String × String)) "2024-05-02"
      "2024-05-01" (Stores.mk [("2024-05-02", "")] [] none) "2024" true
      0).2.2.2.2 (by decide) (by decide)).1,
   ((empty_version_treated_absent ([] : List (String × String)) "2024-05-02"
      "2024-05-01" (Stores.mk [("2024-05-02", "")] [] none) "2024" true
      0).2.2.2.2 (by decide) (by decide)).2.2.1⟩

theorem kvGet_kvPut_self {δ α : Type} [DecidableEq δ] (vs : List (δ × α))
    (k : δ) (v : α) : kvGet (kvPut vs k v) k = some v := by
  simp [kvGet, kvPut]

theorem kvGet_kvPut_ne {δ α : Type} [DecidableEq δ] (vs : List (δ × α))
    (k k2 : δ) (v : α) (h : k ≠ k2) :
    kvGet (kvPut vs k v) k2 = kvGet vs k2 := by
  simp [kvGet, kvPut, h]

theorem kvGet_none_of_bound {α : Type} {vs : List (Nat × α)} {n d : Nat}
    (hb : ∀ k v, kvGet vs k = some v → k < n) (hd : n ≤ d) :
    kvGet vs d = none := by
  cases h : kvGet vs d with
  | none => rfl
  | some v => exact absurd (hb d v h) (by omega)

/-- The value of the most recent version record strictly before day `e`. -/
def priorVersion (vs : List (Nat × String)) : Nat → Option String
  | 0 => none
  | e + 1 =>
      match kvGet vs e with
      | some v => some v
      | none => priorVersion vs e

theorem priorVersion_congr (vs1 vs2 : List (Nat × String)) (e : Nat)
    (h : ∀ k, k < e → kvGet vs2 k = kvGet vs1 k) :
    priorVersion vs2 e = priorVersion vs1 e := by
  induction e with
  | zero => rfl
  | succ m ih =>
      unfold priorVersion
      rw [h m (Nat.lt_succ_self m)]
      cases hk : kvGet vs1 m with
      | some v => rfl
      | none => exact ih (fun k hk2 => h k (Nat.lt_trans hk2 (Nat.lt_succ_self m)))

/-- The spec invariant: a version change record exists for a date only if
the version record for that date differs from the most recent prior version
record. -/
def ChangeInv (s : Stores Nat) : Prop :=
  ∀ e c, kvGet s.MAP_VERSION_CHANGES e = some c →
    ∃ v, kvGet s.MAP_VERSIONS e = some v ∧
      priorVersion s.MAP_VERSIONS e ≠ some v

/-- All recorded activity lies on days before `n`. -/
def BoundedBy (s : Stores Nat) (n : Nat) : Prop :=
  (∀ k v, kvGet s.MAP_VERSIONS k = some v → k < n) ∧
  (∀ k c, kvGet s.MAP_VERSION_CHANGES k = some c → k < n)

/-- Store states reachable by daily scheduled runs.  Days are numbered
`1, 2, ...`; `Reach s n` means `s` arose from runs on days before `n`.
Each run happens on some day `d` not earlier than all previous activity
(the cron triggers at most once per day), with today's key `d` and
yesterday's key `d - 1`, and with arbitrary outcomes of the effectful
steps. -/
inductive Reach : Stores Nat → Nat → Prop where
  | init : Reach (Stores.mk [] [] none) 1
  | step (s : Stores Nat) (n d : Nat) (rf : Bool)
      (fr : Except String String) (pe : Option String) (eo : Bool)
      (now : Nat) : Reach s n → n ≤ d →
      Reach (scheduled s d (d - 1) rf fr pe eo now).stores (d + 1)

theorem previousVersionOf_some_yesterday {δ : Type} [DecidableEq δ]
    (s : Stores δ) (t y : δ) (rf : Bool) (p : String)
    (h : previousVersionOf s t y rf = some p)
    (ht : kvGet s.MAP_VERSIONS t = none) :
    kvGet s.MAP_VERSIONS y = some p := by
  cases rf with
  | true => simp [previousVersionOf] at h
  | false =>
      have hor : ornull ((getLatestVersion s.MAP_VERSIONS t y).map
          Prod.snd) = some p := by
        simpa [previousVersionOf] using h
      obtain ⟨hm, hpne⟩ := ornull_eq_some hor
      cases hk : kvGet s.MAP_VERSIONS y with
      | none => simp [getLatestVersion, firstTruthy, ht, hk] at hm
      | some v =>
          by_cases hv : v = ""
          · simp [getLatestVersion, firstTruthy, ht, hk, hv] at hm
          · simp only [getLatestVersion, firstTruthy, ht, hk, if_neg hv] at hm
            have hvp : v = p := by simpa using hm
            rw [hvp]

theorem scheduled_stores_chara {δ : Type} [DecidableEq δ] (s : Stores δ)
    (today yesterday : δ) (rf : Bool) (fr : Except String String)
    (pe : Option String) (eo : Bool) (now : Nat) :
    (scheduled s today yesterday rf fr pe eo now).stores = s ∨
    ∃ l, fr = Except.ok l ∧
      ((scheduled s today yesterday rf fr pe eo now).stores =
          { s with MAP_VERSIONS := kvPut s.MAP_VERSIONS today l } ∨
        ∃ p, previousVersionOf s today yesterday rf = some p ∧ p ≠ "" ∧
          p ≠ l ∧
          (scheduled s today yesterday rf fr pe eo now).stores =
            { MAP_VERSIONS := kvPut s.MAP_VERSIONS today l,
              MAP_VERSION_CHANGES :=
                kvPut s.MAP_VERSION_CHANGES today
                  { created_at := now, from_version := p,
                    to_version := l },
              last_change := some today }) := by
  cases fr with
  | error e =>
      left
      by_cases htr : truthy (previousVersionOf s today yesterday rf) <;>
        simp [scheduled, htr]
  | ok l =>
      cases pe with
      | some e => left; simp [scheduled]
      | none =>
          right
          refine ⟨l, rfl, ?_⟩
          cases hp : previousVersionOf s today yesterday rf with
          | none => left; simp [scheduled, hp]
          | some p =>
              by_cases hpe : p = ""
              · left; simp [scheduled, hp, hpe]
              · by_cases hpl : p = l
                · left
                  subst hpl
                  simp [scheduled, hp, hpe]
                · right
                  exact ⟨p, rfl, hpe, hpl, by simp [scheduled, hp, hpe, hpl]⟩

theorem reach_step_props (s : Stores Nat) (n d : Nat) (rf : Bool)
    (fr : Except String String) (pe : Option String) (eo : Bool) (now : Nat)
    (h1 : 1 ≤ n) (hb : BoundedBy s n) (hi : ChangeInv s) (hd : n ≤ d) :
    BoundedBy (scheduled s d (d - 1) rf fr pe eo now).stores (d + 1) ∧
    ChangeInv (scheduled s d (d - 1) rf fr pe eo now).stores := by
  rcases scheduled_stores_chara s d (d - 1) rf fr pe eo now with
    hs | ⟨l, -, hs | ⟨p, hp, hpne, hpl, hs⟩⟩
  · rw [hs]
    refine ⟨⟨fun k v hk => ?_, fun k c hk => ?_⟩, hi⟩
    · exact Nat.lt_of_lt_of_le (hb.1 k v hk) (by omega)
    · exact Nat.lt_of_lt_of_le (hb.2 k c hk) (by omega)
  · rw [hs]
    refine ⟨⟨fun k v hk => ?_, fun k c hk => ?_⟩, fun e c he => ?_⟩
    · simp only at hk
      by_cases hkd : d = k
      · omega
      · rw [kvGet_kvPut_ne _ _ _ _ hkd] at hk
        exact Nat.lt_of_lt_of_le (hb.1 k v hk) (by omega)
    · simp only at hk
      exact Nat.lt_of_lt_of_le (hb.2 k c hk) (by omega)
    · simp only at he
      obtain ⟨v, hv, hprior⟩ := hi e c he
      have hed : e < d := Nat.lt_of_lt_of_le (hb.2 e c he) hd
      refine ⟨v, ?_, ?_⟩
      · simp only
        rw [kvGet_kvPut_ne _ _ _ _ (by omega)]
        exact hv
      · simp only
        rw [priorVersion_congr s.MAP_VERSIONS _ e
          (fun k hk => kvGet_kvPut_ne _ _ _ _ (by omega))]
        exact hprior
  · have htoday : kvGet s.MAP_VERSIONS d = none :=
      kvGet_none_of_bound hb.1 hd
    have hy : kvGet s.MAP_VERSIONS (d - 1) = some p :=
      previousVersionOf_some_yesterday s d (d - 1) rf p hp htoday
    rw [hs]
    refine ⟨⟨fun k v hk => ?_, fun k c hk => ?_⟩, fun e c he => ?_⟩
    · simp only at hk
      by_cases hkd : d = k
      · omega
      · rw [kvGet_kvPut_ne _ _ _ _ hkd] at hk
        exact Nat.lt_of_lt_of_le (hb.1 k v hk) (by omega)
    · simp only at hk
      by_cases hkd : d = k
      · omega
      · rw [kvGet_kvPut_ne _ _ _ _ hkd] at hk
        exact Nat.lt_of_lt_of_le (hb.2 k c hk) (by omega)
    · simp only at he ⊢
      by_cases hed : e = d
      · subst hed
        refine ⟨l, kvGet_kvPut_self _ _ _, ?_⟩
        have he1 : 1 ≤ e := Nat.le_trans h1 hd
        obtain ⟨m, rfl⟩ : ∃ m, e = m + 1 :=
          ⟨e - 1, (Nat.succ_pred_eq_of_pos he1).symm⟩
        have hyp : kvGet (kvPut s.MAP_VERSIONS (m + 1) l) m = some p := by
          rw [kvGet_kvPut_ne _ _ _ _ (by omega)]
          exact hy
        unfold priorVersion
        rw [hyp]
        intro hc
        injection hc with hc
        exact hpl hc
      · rw [kvGet_kvPut_ne _ _ _ _ (fun hdd => hed hdd.symm)] at he
        obtain ⟨v, hv, hprior⟩ := hi e c he
        have hedn : e < d := Nat.lt_of_lt_of_le (hb.2 e c he) hd
        refine ⟨v, ?_, ?_⟩
        · rw [kvGet_kvPut_ne _ _ _ _ (by omega)]
          exact hv
        · rw [priorVersion_congr s.MAP_VERSIONS _ e
            (fun k hk => kvGet_kvPut_ne _ _ _ _ (by omega))]
          exact hprior

theorem reach_props (s : Stores Nat) (n : Nat) (h : Reach s n) :
    1 ≤ n ∧ BoundedBy s n ∧ ChangeInv s := by
  induction h with
  | init =>
      refine ⟨Nat.le_refl 1, ⟨fun k v hk => ?_, fun k c hk => ?_⟩,
        fun e c he => ?_⟩
      · simp [kvGet] at hk
      · simp [kvGet] at hk
      · simp [kvGet] at he
  | step s n d rf fr pe eo now hr hd ih =>
      obtain ⟨h1, hb, hi⟩ := ih
      have hstep := reach_step_props s n d rf fr pe eo now h1 hb hi hd
      exact ⟨by omega, hstep.1, hstep.2⟩

/-- C7: starting from any reachable store state, every scheduled run
preserves the invariant that a version change record exists for a given
date only if the version record for that date differs from the most recent
prior version record. -/
theorem change_record_invariant (s : Stores Nat) (n d : Nat) (rf : Bool)
    (fr : Except String String) (pe : Option String) (eo : Bool) (now : Nat)
    (hreach : Reach s n) (hd : n ≤ d) :
    ChangeInv s ∧
    ChangeInv (scheduled s d (d - 1) rf fr pe eo now).stores := by
  obtain ⟨h1, hb, hi⟩ := reach_props s n hreach
  exact ⟨hi, (reach_step_props s n d rf fr pe eo now h1 hb hi hd).2⟩

/-- Witness for C7: the invariant holds on the initial state and after a
first run on day 1. -/
theorem change_record_invariant_witness :
    ChangeInv (Stores.mk [] [] none) ∧
    ChangeInv (scheduled (Stores.mk [] [] none) 1 (1 - 1) false
      (Except.ok "2024") none true 0).stores :=
  change_record_invariant (Stores.mk [] [] none) 1 1 false
    (Except.ok "2024") none true 0 Reach.init (Nat.le_refl 1)
